import Mathlib

/-!
Verification of the Markdown-to-DOCX/HTML/PDF converter (streamlit_app.py).

The development shallowly embeds the conversion core:

given the HTML fragment produced by the (external) Markdown parser, modelled
as a tree of nodes, the functions below mirror, line for line, the Python
functions `md_to_html_with_style`, `convert_to_docx_with_style`,
`convert_to_pdf`, and the conversion branch of `main` (including the
`re.sub`-based custom-CSS substitution, whose Python replacement-template
semantics is modelled explicitly).
-/

namespace MdToDocx

/-- An HTML node as seen by BeautifulSoup: either a text node or an element
with a tag name and a list of children.  `soup.body`'s children form the
fragment handed to `convert_to_docx_with_style`. -/
inductive Node where
  | text (s : String)
  | elem (tag : String) (children : List Node)
deriving Repr

/-- Kind of a list item paragraph style: List Bullet or List Number. -/
inductive ListKind where
  | bullet
  | number
deriving DecidableEq, Repr

/-- A block appended to the python-docx `Document` by
`convert_to_docx_with_style`: `heading` models `doc.add_heading(level=..)`
with a colored run, `paragraph` a plain `doc.add_paragraph()` with a run,
`codeBlock` a paragraph whose run has font name Courier New, `listItem` a
paragraph with style List Bullet or List Number, `quote` a paragraph with
style Quote. -/
inductive Block where
  | heading (level : Nat) (text : String) (color : Nat × Nat × Nat)
  | paragraph (text : String)
  | codeBlock (text : String) (font : String)
  | listItem (kind : ListKind) (text : String)
  | quote (text : String)
deriving DecidableEq, Repr

mutual

/-- BeautifulSoup `element.get_text()`: concatenation of all text descendants
in document order, no separators. -/
def getText : Node → String
  | .text s => s
  | .elem _ cs => getTextList cs

/-- `get_text` over a list of sibling nodes. -/
def getTextList : List Node → String
  | [] => ""
  | c :: cs => getText c ++ getTextList cs

end

/-- RGBColor(44, 62, 80), the run color applied to level-1 headings
(source line 80). -/
def colorA : Nat × Nat × Nat := (44, 62, 80)

/-- RGBColor(52, 152, 219), the run color applied to all other matched
headings (source line 82). -/
def colorB : Nat × Nat × Nat := (52, 152, 219)

/-- The tag list passed to `soup.body.find_all` on source line 72.  Note that
h5 and h6 are absent. -/
def recognizedTags : List String :=
  ["h1", "h2", "h3", "h4", "p", "pre", "ul", "ol", "li", "blockquote"]

/-- Python `tag_name.startswith("h")` (source line 75): true iff the first
character of the tag is h. -/
def startsWithH (tag : String) : Bool :=
  match tag.toList with
  | c :: _ => c = 'h'
  | [] => false

/-- Python `int(tag_name[1])` (source line 76): the digit value of the second
character of the tag (0 when the tag is shorter, a case `find_all` never
produces). -/
def headingLevel (tag : String) : Nat :=
  match tag.toList with
  | _ :: c :: _ => c.toNat - 48
  | _ => 0

/-- The body of the `for element in soup.body.find_all(...)` loop (source
lines 73-107): dispatch on the tag name, producing the block appended to the
document, or `none` for `ul`/`ol` (the `continue` branch).  `parentTag` is
`element.parent.name`, consulted only in the `li` branch (line 100). -/
def processElement (e : Node) (parentTag : String) : Option Block :=
  match e with
  | .text _ => none
  | .elem tag cs =>
    if startsWithH tag then
      some (.heading (headingLevel tag) (getTextList cs)
        (if headingLevel tag = 1 then colorA else colorB))
    else if tag = "p" then
      some (.paragraph (getTextList cs))
    else if tag = "pre" then
      some (.codeBlock (getTextList cs) "Courier New")
    else if tag = "ul" ∨ tag = "ol" then
      none
    else if tag = "li" then
      some (.listItem (if parentTag = "ul" then .bullet else .number) (getTextList cs))
    else if tag = "blockquote" then
      some (.quote (getTextList cs))
    else
      none

mutual

/-- BeautifulSoup `find_all` restricted to `recognizedTags`: all matching
descendant elements in document (pre-)order, each paired with the tag of its
immediate parent (`element.parent.name`). -/
def findAll (parentTag : String) : Node → List (Node × String)
  | .text _ => []
  | .elem tag cs =>
    (if tag ∈ recognizedTags then [(Node.elem tag cs, parentTag)] else [])
      ++ findAllList tag cs

/-- `findAll` over a list of sibling nodes sharing one parent. -/
def findAllList (parentTag : String) : List Node → List (Node × String)
  | [] => []
  | c :: cs => findAll parentTag c ++ findAllList parentTag cs

end

/-- The `for` loop of `convert_to_docx_with_style`: walk the `find_all`
result in order, appending the block each element produces (if any) to the
document. -/
def buildDoc : List (Node × String) → List Block
  | [] => []
  | (e, par) :: rest =>
    match processElement e par with
    | some b => b :: buildDoc rest
    | none => buildDoc rest

/-- `convert_to_docx_with_style` (source lines 67-112), taking the children
of `soup.body` (the parse of the HTML content is the external BeautifulSoup
collaborator).  The resulting ordered block list is the content of the
python-docx `Document`; serializing it to the DOCX byte container
(`doc.save`) is delegated to the external word-processing library, per the
spec's scope. -/
def convert_to_docx_with_style (body : List Node) : List Block :=
  buildDoc (findAllList "body" body)

mutual

/-- Number of `li` elements in a node's subtree, the element itself
included. -/
def countLi : Node → Nat
  | .text _ => 0
  | .elem tag cs => (if tag = "li" then 1 else 0) + countLiList cs

/-- Number of `li` elements in a forest. -/
def countLiList : List Node → Nat
  | [] => 0
  | c :: cs => countLi c + countLiList cs

end

/-- Whether a node is an `li` element. -/
def isLiNode : Node → Bool
  | .text _ => false
  | .elem tag _ => tag = "li"

/-- Whether a block is a list-item paragraph. -/
def isListItemBlock : Block → Bool
  | .listItem _ _ => true
  | _ => false

/-- The eleven CSS rules embedded by `md_to_html_with_style` between the
style tags (source lines 38-48), with the f-string's doubled braces rendered
as single braces and the exact indentation of the template. -/
def defaultCssBlock : String :=
  "\n            body \x7b font-family: Arial, sans-serif; line-height: 1.6; max-width: 800px; margin: 0 auto; padding: 20px; \x7d"
  ++ "\n            h1 \x7b color: #2c3e50; border-bottom: 1px solid #eee; padding-bottom: 10px; \x7d"
  ++ "\n            h2, h3, h4 \x7b color: #3498db; margin-top: 30px; \x7d"
  ++ "\n            pre \x7b background-color: #f8f8f8; border: 1px solid #ddd; padding: 10px; border-radius: 5px; overflow-x: auto; \x7d"
  ++ "\n            code \x7b background-color: #f8f8f8; padding: 2px 5px; border-radius: 3px; font-family: monospace; \x7d"
  ++ "\n            blockquote \x7b background-color: #f9f9f9; border-left: 4px solid #ccc; padding: 10px 15px; margin: 0; \x7d"
  ++ "\n            table \x7b border-collapse: collapse; width: 100%; margin: 20px 0; \x7d"
  ++ "\n            th, td \x7b border: 1px solid #ddd; padding: 8px; text-align: left; \x7d"
  ++ "\n            th \x7b background-color: #f2f2f2; \x7d"
  ++ "\n            tr:nth-child(even) \x7b background-color: #f9f9f9; \x7d"
  ++ "\n            img \x7b max-width: 100%; height: auto; \x7d"
  ++ "\n        "

/-- The part of the `styled_html` f-string (source lines 32-55) before the
opening style tag. -/
def shellHead1 : String :=
  "\n    <!DOCTYPE html>\n    <html>\n    <head>\n        <meta charset=\"UTF-8\">\n        "

/-- The part of the `styled_html` f-string after the closing style tag, with
the parser's HTML fragment interpolated inside the body element. -/
def shellTail (html : String) : String :=
  "\n    </head>\n    <body>\n        " ++ html ++ "\n    </body>\n    </html>\n    "

/-- `md_to_html_with_style` (source lines 17-56) applied to the parser's
HTML fragment: the Markdown-to-HTML call itself is the external parser
collaborator, so this function models the wrapping of its output in the
styled document shell. -/
def md_to_html_with_style (html : String) : String :=
  shellHead1 ++ "<style>" ++ defaultCssBlock ++ "</style>" ++ shellTail html

/-- The seven characters of the literal regex part matching the opening
style tag. -/
def openT : List Char := ['<', 's', 't', 'y', 'l', 'e', '>']

/-- The eight characters of the literal regex part matching the closing
style tag. -/
def closeT : List Char := ['<', '/', 's', 't', 'y', 'l', 'e', '>']

/-- Locate the first occurrence of `closeT` in a character list, the lazy
semantics of the dot-star-question regex under DOTALL: returns the content
before it and the remainder after it. -/
def splitAtClose : List Char → Option (List Char × List Char)
  | [] => none
  | c :: cs =>
    if List.isPrefixOf closeT (c :: cs) then
      some ([], (c :: cs).drop 8)
    else
      match splitAtClose cs with
      | some (content, rest) => some (c :: content, rest)
      | none => none

/-- Read a replacement-template group name up to the closing angle bracket;
`none` when the bracket is missing. -/
def takeGroupName : List Char → Option (List Char × List Char)
  | [] => none
  | c :: cs =>
    if c = '>' then some ([], cs)
    else
      match takeGroupName cs with
      | some (name, rest) => some (c :: name, rest)
      | none => none

/-- Decimal value of a digit list. -/
def digitsToNat (l : List Char) : Nat :=
  l.foldl (fun a c => a * 10 + (c.toNat - 48)) 0

/-- Resolve a named group reference in a replacement template against the
pattern of the source (which has no capturing groups): group 0 is the whole
match, any other reference is an error, as in Python re. -/
def groupRefResult (matched : List Char) (name : List Char) : Except String (List Char) :=
  if name = [] then .error "missing group name"
  else if name.all Char.isDigit then
    if digitsToNat name = 0 then .ok matched else .error "invalid group reference"
  else .error "unknown group name"

/-- Whether a character is an octal digit. -/
def isOctalChar (c : Char) : Bool := 48 ≤ c.toNat && c.toNat ≤ 55

/-- Value of an octal digit. -/
def octv (c : Char) : Nat := c.toNat - 48

/-- Consume up to two further octal digits of an octal escape. -/
def takeOct2 : List Char → Nat × List Char
  | [] => (0, [])
  | e1 :: rest1 =>
    if isOctalChar e1 then
      match rest1 with
      | e2 :: rest2 =>
        if isOctalChar e2 then (octv e1 * 8 + octv e2, rest2) else (octv e1, e2 :: rest2)
      | [] => (octv e1, [])
    else (0, e1 :: rest1)

/-- Standard single-letter character escapes of Python replacement
templates. -/
def escCharMap (c : Char) : Option Char :=
  if c = 'a' then some (Char.ofNat 7)
  else if c = 'b' then some (Char.ofNat 8)
  else if c = 'f' then some (Char.ofNat 12)
  else if c = 'n' then some (Char.ofNat 10)
  else if c = 'r' then some (Char.ofNat 13)
  else if c = 't' then some (Char.ofNat 9)
  else if c = 'v' then some (Char.ofNat 11)
  else none

/-- Modelled from the spec and the Python standard library: the replacement
string of `re.sub` is a template whose backslash escapes are processed at
substitution time (the repository's source only calls `re.sub`; the
template semantics itself lives in the external `re` collaborator).
`matched` is the text of the whole match (group 0).  Escapes: a doubled
backslash is a literal backslash; a bracketed group reference inserts group
0 or fails for any other group (the pattern has no capturing groups); a
leading-zero octal escape denotes a character; any other digit escape is a
group reference and fails unless it spells a three-octal-digit character;
known letter escapes denote control characters, unknown ASCII letter
escapes are errors, and other escaped characters are kept verbatim.  The
fuel argument only pays for termination; the top-level call supplies the
template length, which one step per recursive call never exhausts. -/
def expandGo (matched : List Char) : Nat → List Char → Except String (List Char)
  | _, [] => .ok []
  | 0, s => .ok s
  | fuel + 1, c :: cs =>
    if c = '\\' then
      match cs with
      | [] => .error "bad escape (end of pattern)"
      | d :: ds =>
        if d = '\\' then
          (expandGo matched fuel ds).map (fun t => '\\' :: t)
        else if d = 'g' then
          match ds with
          | '<' :: es =>
            match takeGroupName es with
            | some (name, rest) =>
              match groupRefResult matched name with
              | .ok ins => (expandGo matched fuel rest).map (fun t => ins ++ t)
              | .error e => .error e
            | none => .error "missing angle bracket, unterminated name"
          | _ => .error "missing angle bracket"
        else if d = '0' then
          (expandGo matched fuel (takeOct2 ds).2).map
            (fun t => Char.ofNat (takeOct2 ds).1 :: t)
        else if d.isDigit then
          match ds with
          | e1 :: e2 :: rest =>
            if isOctalChar d && isOctalChar e1 && isOctalChar e2 then
              (expandGo matched fuel rest).map
                (fun t => Char.ofNat (octv d * 64 + octv e1 * 8 + octv e2) :: t)
            else .error "invalid group reference"
          | _ => .error "invalid group reference"
        else
          match escCharMap d with
          | some e => (expandGo matched fuel ds).map (fun t => e :: t)
          | none =>
            if d.isAlpha then .error "bad escape"
            else (expandGo matched fuel ds).map (fun t => '\\' :: d :: t)
    else
      (expandGo matched fuel cs).map (fun t => c :: t)

/-- Expand a replacement template against the text of a match. -/
def expandTemplate (matched : List Char) (repl : List Char) : Except String (List Char) :=
  expandGo matched repl.length repl

/-- Modelled from the spec and the Python standard library: the scan loop of
`re.sub` for the pattern that lazily matches one style block under DOTALL.
At each position, if the opening style tag starts here and a closing tag
follows, the shortest such span is the match: the expanded template replaces
it and scanning resumes after the match; otherwise the character is copied.
The fuel argument only pays for termination; the top-level call supplies the
subject length, which one step per recursive call never exhausts. -/
def subGo (repl : List Char) : Nat → List Char → Except String (List Char)
  | _, [] => .ok []
  | 0, s => .ok s
  | fuel + 1, c :: cs =>
    if List.isPrefixOf openT (c :: cs) then
      match splitAtClose ((c :: cs).drop 7) with
      | some (content, rest) =>
        match expandTemplate (openT ++ content ++ closeT) repl with
        | .ok rep =>
          match subGo repl fuel rest with
          | .ok tail => .ok (rep ++ tail)
          | .error e => .error e
        | .error e => .error e
      | none =>
        match subGo repl fuel cs with
        | .ok tail => .ok (c :: tail)
        | .error e => .error e
    else
      match subGo repl fuel cs with
      | .ok tail => .ok (c :: tail)
      | .error e => .error e

/-- The `re.sub` call of `main` (source lines 156-161): replace every lazy
style-block match by the template built from the custom CSS.  An error of
the template processing is the exception Python would raise. -/
def reSubStyle (custom_css : String) (html_content : String) : Except String String :=
  (subGo ("<style>" ++ custom_css ++ "</style>").toList
      html_content.toList.length html_content.toList).map String.mk

/-- The custom-CSS step of the HTML branch of `main` (source lines 154-161):
the substitution runs only when the CSS text is truthy, that is,
non-empty. -/
def applyCustomCss (custom_css : String) (html_content : String) : Except String String :=
  if custom_css = "" then .ok html_content
  else reSubStyle custom_css html_content

/-- A harmless CSS rule, used as the plain part of the adversarial custom
CSS below. -/
def c7cssPlain : String := "h1 \x7b color: red; \x7d"

/-- An adversarial custom CSS text: a valid CSS rule followed by the
replacement-template escape referring to group 0, which `re.sub` expands to
the whole matched style block instead of keeping it verbatim. -/
def c7cssBad : String := c7cssPlain ++ "\\g<0>"

/-- `convert_to_pdf` (source lines 58-65): the external rendering engine is
the `render` collaborator; an engine error is caught, reported through
`st.error` with a PDF-specific message (modelled as the returned message
list), and `None` is returned. -/
def convert_to_pdf (render : String → Except String (List Nat))
    (html_content : String) : Option (List Nat) × List String :=
  match render html_content with
  | .ok pdf => (some pdf, [])
  | .error e => (none, ["Error converting to PDF: " ++ e])

/-- A file offered through `st.download_button`. -/
inductive Download where
  | htmlFile (content : String)
  | pdfFile (bytes : List Nat)
  | docxFile (blocks : List Block)
deriving Repr

/-- The selectable output format (source lines 134-137). -/
inductive OutputFormat where
  | html
  | pdf
  | docx
deriving DecidableEq, Repr

/-- The conversion branch of `main` after the Convert button (source lines
149-192): `html_content` is the styled shell, `parsedBody` its body parsed
by the external BeautifulSoup collaborator.  The HTML branch substitutes the
custom CSS (an uncaught template error aborts with no download); the PDF
branch offers a download only when `convert_to_pdf` returned truthy bytes;
the DOCX branch always offers the converted document. -/
def mainConvert (render : String → Except String (List Nat))
    (output_format : OutputFormat) (html_content : String)
    (custom_css : String) (parsedBody : List Node) :
    Option Download × List String :=
  match output_format with
  | .html =>
    match applyCustomCss custom_css html_content with
    | .ok out => (some (.htmlFile out), [])
    | .error e => (none, [e])
  | .pdf =>
    match convert_to_pdf render html_content with
    | (some pdf, errs) => (if pdf.isEmpty then none else some (.pdfFile pdf), errs)
    | (none, errs) => (none, errs)
  | .docx => (some (.docxFile (convert_to_docx_with_style parsedBody)), [])

theorem findAllList_append (par : String) (xs ys : List Node) :
    findAllList par (xs ++ ys) = findAllList par xs ++ findAllList par ys := by
  induction xs with
  | nil => simp [findAllList]
  | cons c cs ih => simp [findAllList, ih]

theorem buildDoc_append (xs ys : List (Node × String)) :
    buildDoc (xs ++ ys) = buildDoc xs ++ buildDoc ys := by
  induction xs with
  | nil => simp [buildDoc]
  | cons p ps ih =>
    obtain ⟨e, par⟩ := p
    cases h : processElement e par <;> simp [buildDoc, h, ih]

theorem buildDoc_eq_filterMap (l : List (Node × String)) :
    buildDoc l = l.filterMap (fun p => processElement p.1 p.2) := by
  induction l with
  | nil => simp [buildDoc]
  | cons p ps ih =>
    obtain ⟨e, par⟩ := p
    cases h : processElement e par <;> simp [buildDoc, h, ih]

theorem processElement_not_listItem (tag : String) (cs : List Node) (par : String)
    (htag : tag ≠ "li") (b : Block) (h : processElement (.elem tag cs) par = some b) :
    isListItemBlock b = false := by
  simp only [processElement] at h
  by_cases h1 : startsWithH tag = true
  · rw [if_pos h1] at h; cases h; rfl
  · rw [if_neg h1] at h
    by_cases h2 : tag = "p"
    · rw [if_pos h2] at h; cases h; rfl
    · rw [if_neg h2] at h
      by_cases h3 : tag = "pre"
      · rw [if_pos h3] at h; cases h; rfl
      · rw [if_neg h3] at h
        by_cases h4 : tag = "ul" ∨ tag = "ol"
        · rw [if_pos h4] at h; cases h
        · rw [if_neg h4] at h
          rw [if_neg htag] at h
          by_cases h6 : tag = "blockquote"
          · rw [if_pos h6] at h; cases h; rfl
          · rw [if_neg h6] at h; cases h

theorem isLiNode_elem (tag : String) (cs : List Node) :
    isLiNode (.elem tag cs) = decide (tag = "li") := rfl

theorem processElement_li (cs : List Node) (par : String) :
    processElement (.elem "li" cs) par =
      some (.listItem (if par = "ul" then .bullet else .number) (getTextList cs)) := by
  simp [processElement, startsWithH]

theorem buildDoc_countLi (l : List (Node × String)) :
    (buildDoc l).countP isListItemBlock = l.countP (fun p => isLiNode p.1) := by
  induction l with
  | nil => simp [buildDoc]
  | cons p ps ih =>
    obtain ⟨e, par⟩ := p
    match e with
    | .text s => simp [buildDoc, processElement, isLiNode, ih, List.countP_cons]
    | .elem tag cs =>
      by_cases htag : tag = "li"
      · subst htag
        simp [buildDoc, processElement_li, isLiNode, isListItemBlock, ih, List.countP_cons]
      · cases h : processElement (.elem tag cs) par with
        | none => simp [buildDoc, h, ih, List.countP_cons, isLiNode, htag]
        | some b =>
          have hb := processElement_not_listItem tag cs par htag b h
          simp [buildDoc, h, ih, List.countP_cons, isLiNode, htag, hb]

mutual

theorem findAll_countLi : ∀ (par : String) (t : Node),
    List.countP (fun p => isLiNode p.1) (findAll par t) = countLi t
  | par, .text s => by simp [findAll, countLi]
  | par, .elem tag cs => by
    have ih := findAllList_countLi tag cs
    by_cases htag : tag = "li"
    · subst htag
      have hmem : ("li" : String) ∈ recognizedTags := by decide
      rw [findAll, countLi, List.countP_append, ih, if_pos hmem,
        List.countP_cons, List.countP_nil]
      simp [isLiNode_elem]
    · rw [findAll, countLi, List.countP_append, ih, if_neg htag]
      split <;> simp [List.countP_cons, isLiNode_elem, htag]

theorem findAllList_countLi : ∀ (par : String) (l : List Node),
    List.countP (fun p => isLiNode p.1) (findAllList par l) = countLiList l
  | par, [] => by simp [findAllList, countLiList]
  | par, c :: cs => by
    have ih1 := findAll_countLi par c
    have ih2 := findAllList_countLi par cs
    simp [findAllList, countLiList, List.countP_append, ih1, ih2]

end

theorem convert_countLi (body : List Node) :
    (convert_to_docx_with_style body).countP isListItemBlock = countLiList body := by
  rw [convert_to_docx_with_style, buildDoc_countLi, findAllList_countLi]



theorem isPrefixOf_append_self (l t : List Char) :
    List.isPrefixOf l (l ++ t) = true := by
  induction l with
  | nil => simp [List.isPrefixOf]
  | cons a as ih => simp [List.isPrefixOf, ih]

theorem take_isPrefixOf (l X rest : List Char)
    (h : List.isPrefixOf l (X ++ rest) = true) :
    List.isPrefixOf (List.take X.length l) X = true := by
  induction X generalizing l with
  | nil => simp [List.isPrefixOf]
  | cons x xs ih =>
    cases l with
    | nil => simp [List.isPrefixOf]
    | cons a as =>
      simp only [List.cons_append, List.isPrefixOf, Bool.and_eq_true] at h
      simp only [List.length_cons, List.take_succ_cons, List.isPrefixOf, Bool.and_eq_true]
      exact ⟨h.1, ih as h.2⟩

theorem splitAtClose_spec (S T : List Char) (hS : ∀ c ∈ S, c ≠ '<') :
    splitAtClose (S ++ (closeT ++ T)) = some (S, T) := by
  induction S with
  | nil =>
    have h1 : List.isPrefixOf closeT ('<' :: (['/', 's', 't', 'y', 'l', 'e', '>'] ++ T))
        = true := isPrefixOf_append_self closeT T
    rw [List.nil_append,
      show closeT ++ T = '<' :: (['/', 's', 't', 'y', 'l', 'e', '>'] ++ T) from rfl,
      splitAtClose]
    rw [if_pos h1]
    simp [List.drop]
  | cons c S' ih =>
    have hc : c ≠ '<' := hS c (by simp)
    have hS' : ∀ x ∈ S', x ≠ '<' := fun x hx => hS x (by simp [hx])
    have hneg : ¬ (List.isPrefixOf closeT (c :: (S' ++ (closeT ++ T))) = true) := by
      rw [show closeT = '<' :: ['/', 's', 't', 'y', 'l', 'e', '>'] from rfl]
      simp only [List.isPrefixOf, Bool.and_eq_true, beq_iff_eq]
      intro hcon
      exact hc hcon.1.symm
    rw [List.cons_append, splitAtClose, if_neg hneg, ih hS']

theorem expandGo_cons_plain (matched : List Char) (fuel : Nat) (c : Char) (cs : List Char)
    (hc : c ≠ '\\') :
    expandGo matched (fuel + 1) (c :: cs) = (expandGo matched fuel cs).map (fun t => c :: t) := by
  rw [expandGo.eq_def]
  simp only [if_neg hc]

theorem expandGo_no_bs (matched : List Char) : ∀ (fuel : Nat) (repl : List Char),
    (∀ c ∈ repl, c ≠ '\\') → expandGo matched fuel repl = .ok repl := by
  intro fuel
  induction fuel with
  | zero =>
    intro repl h
    cases repl <;> rfl
  | succ f ih =>
    intro repl h
    cases repl with
    | nil => rfl
    | cons c cs =>
      have hc : c ≠ '\\' := h c (by simp)
      rw [expandGo_cons_plain matched f c cs hc, ih cs (fun x hx => h x (by simp [hx]))]
      rfl

theorem subGo_advance (repl : List Char) : ∀ (A rest : List Char) (fuel : Nat),
    (∀ i, i < A.length →
      List.isPrefixOf (openT.take (A.length - i)) (A.drop i) = false) →
    subGo repl (A.length + fuel) (A ++ rest) =
      (subGo repl fuel rest).map (fun t => A ++ t) := by
  intro A
  induction A with
  | nil =>
    intro rest fuel _
    rw [List.length_nil, Nat.zero_add, List.nil_append]
    cases h : subGo repl fuel rest <;> simp [Except.map]
  | cons c A' ih =>
    intro rest fuel hA
    have h0 : List.isPrefixOf openT (c :: (A' ++ rest)) = false := by
      have h00 := hA 0 (by simp)
      simp only [List.drop_zero, Nat.sub_zero] at h00
      by_contra hcon
      have htrue : List.isPrefixOf openT ((c :: A') ++ rest) = true := by
        revert hcon
        rw [List.cons_append]
        cases List.isPrefixOf openT (c :: (A' ++ rest)) <;> simp
      have := take_isPrefixOf openT (c :: A') rest htrue
      rw [h00] at this
      exact Bool.false_ne_true this
    have hA' : ∀ i, i < A'.length →
        List.isPrefixOf (openT.take (A'.length - i)) (A'.drop i) = false := by
      intro i hi
      have := hA (i + 1) (by simp; omega)
      simpa [Nat.succ_sub_succ] using this
    have harith : (c :: A').length + fuel = (A'.length + fuel) + 1 := by
      simp [List.length_cons]
      omega
    rw [List.cons_append, harith, subGo, if_neg (by simp [h0]), ih rest fuel hA']
    cases h : subGo repl fuel rest <;> simp [Except.map]

theorem subGo_noMatch (repl T : List Char) (k : Nat)
    (hT : ∀ i, i < T.length →
      List.isPrefixOf (openT.take (T.length - i)) (T.drop i) = false) :
    subGo repl (T.length + k) T = .ok T := by
  have h := subGo_advance repl T [] k hT
  rw [List.append_nil] at h
  rw [h, show subGo repl k [] = .ok [] from by cases k <;> rfl]
  simp [Except.map]

theorem expandGo_advance (matched : List Char) : ∀ (P rest : List Char) (fuel : Nat),
    (∀ c ∈ P, c ≠ '\\') →
    expandGo matched (P.length + fuel) (P ++ rest) =
      (expandGo matched fuel rest).map (fun t => P ++ t) := by
  intro P
  induction P with
  | nil =>
    intro rest fuel _
    rw [List.length_nil, Nat.zero_add, List.nil_append]
    cases h : expandGo matched fuel rest <;> simp [Except.map]
  | cons c P' ih =>
    intro rest fuel hP
    have hc : c ≠ '\\' := hP c (by simp)
    have harith : (c :: P').length + fuel = (P'.length + fuel) + 1 := by
      simp [List.length_cons]
      omega
    rw [List.cons_append, harith, expandGo_cons_plain matched (P'.length + fuel) c (P' ++ rest) hc,
      ih rest fuel (fun x hx => hP x (by simp [hx]))]
    cases h : expandGo matched fuel rest <;> simp [Except.map]


theorem toList_append (a b : String) : (a ++ b).toList = a.toList ++ b.toList :=
  String.data_append a b

theorem no_lt_append (a b : List Char) (ha : ∀ c ∈ a, c ≠ '<') (hb : ∀ c ∈ b, c ≠ '<') :
    ∀ c ∈ a ++ b, c ≠ '<' := by
  intro c hc
  rcases List.mem_append.mp hc with h | h
  exacts [ha c h, hb c h]

set_option maxRecDepth 2048 in
theorem defaultCss_no_lt : ∀ c ∈ defaultCssBlock.toList, c ≠ '<' := by
  rw [defaultCssBlock]
  simp only [toList_append]
  repeat refine no_lt_append _ _ ?_ (by decide)
  decide

set_option maxRecDepth 4096 in
theorem shellHead1_noOpen : ∀ i, i < shellHead1.toList.length →
    List.isPrefixOf (openT.take (shellHead1.toList.length - i))
      (shellHead1.toList.drop i) = false := by decide

theorem subGo_shell (repl out T : List Char)
    (hexp : expandTemplate (openT ++ defaultCssBlock.toList ++ closeT) repl = .ok out)
    (hT : ∀ i, i < T.length →
      List.isPrefixOf (openT.take (T.length - i)) (T.drop i) = false) :
    subGo repl
        (shellHead1.toList ++ (openT ++ (defaultCssBlock.toList ++ (closeT ++ T)))).length
        (shellHead1.toList ++ (openT ++ (defaultCssBlock.toList ++ (closeT ++ T)))) =
      .ok (shellHead1.toList ++ (out ++ T)) := by
  have hinner : subGo repl (openT ++ (defaultCssBlock.toList ++ (closeT ++ T))).length
      (openT ++ (defaultCssBlock.toList ++ (closeT ++ T))) = .ok (out ++ T) := by
    have hlen : (openT ++ (defaultCssBlock.toList ++ (closeT ++ T))).length =
        (defaultCssBlock.toList.length + T.length + 14) + 1 := by
      simp [List.length_append, openT, closeT]
      omega
    rw [hlen,
      show openT ++ (defaultCssBlock.toList ++ (closeT ++ T)) =
        '<' :: (['s', 't', 'y', 'l', 'e', '>'] ++ (defaultCssBlock.toList ++ (closeT ++ T)))
      from rfl,
      subGo,
      if_pos (show List.isPrefixOf openT
          ('<' :: (['s', 't', 'y', 'l', 'e', '>'] ++ (defaultCssBlock.toList ++ (closeT ++ T))))
          = true from isPrefixOf_append_self openT _),
      show List.drop 7
          ('<' :: (['s', 't', 'y', 'l', 'e', '>'] ++ (defaultCssBlock.toList ++ (closeT ++ T))))
        = defaultCssBlock.toList ++ (closeT ++ T) from rfl,
      splitAtClose_spec defaultCssBlock.toList T defaultCss_no_lt]
    simp only [hexp]
    rw [show defaultCssBlock.toList.length + T.length + 14 =
        T.length + (defaultCssBlock.toList.length + 14) from by omega,
      subGo_noMatch repl T _ hT]
  rw [List.length_append, subGo_advance repl shellHead1.toList _ _ shellHead1_noOpen, hinner]
  rfl


theorem shell_toList (frag : String) :
    (md_to_html_with_style frag).toList =
      shellHead1.toList ++
        (openT ++ (defaultCssBlock.toList ++ (closeT ++ (shellTail frag).toList))) := by
  rw [md_to_html_with_style]
  simp only [toList_append, List.append_assoc]
  rw [show ("<style>" : String).toList = openT from rfl,
    show ("</style>" : String).toList = closeT from rfl]



theorem expandBad (matched : List Char) :
    expandTemplate matched ("<style>" ++ c7cssBad ++ "</style>").toList =
      .ok (("<style>" ++ c7cssPlain).toList ++ (matched ++ closeT)) := by
  have hsplit : ("<style>" ++ c7cssBad ++ "</style>").toList =
      ("<style>" ++ c7cssPlain).toList ++
        ('\\' :: 'g' :: '<' :: '0' :: '>' :: closeT) := by decide
  have hlen : (("<style>" ++ c7cssPlain).toList ++
      ('\\' :: 'g' :: '<' :: '0' :: '>' :: closeT)).length =
      ("<style>" ++ c7cssPlain).toList.length + 13 := by decide
  rw [expandTemplate, hsplit, hlen,
    expandGo_advance matched ("<style>" ++ c7cssPlain).toList _ 13 (by decide)]
  have hstep : expandGo matched 13 ('\\' :: 'g' :: '<' :: '0' :: '>' :: closeT) =
      .ok (matched ++ closeT) := rfl
  rw [hstep]
  rfl



/-- C1 (amended): of the heading tags only h1 through h4 are matched by the
extractor; a matched heading of level 1 gets color A, levels 2 through 4 get
color B, each yielding one heading block at its level; h5 and h6 are not in
the tag list passed to find_all and yield no block at all (their text is
dropped), and no level clamping exists in the code. -/
theorem c1_heading_levels (s : String) :
    convert_to_docx_with_style [.elem "h1" [.text s]] = [.heading 1 s colorA] ∧
    convert_to_docx_with_style [.elem "h2" [.text s]] = [.heading 2 s colorB] ∧
    convert_to_docx_with_style [.elem "h3" [.text s]] = [.heading 3 s colorB] ∧
    convert_to_docx_with_style [.elem "h4" [.text s]] = [.heading 4 s colorB] ∧
    convert_to_docx_with_style [.elem "h5" [.text s]] = [] ∧
    convert_to_docx_with_style [.elem "h6" [.text s]] = [] := by
  refine ⟨?_, ?_, ?_, ?_, ?_, ?_⟩ <;>
    simp [convert_to_docx_with_style, findAllList, findAll, buildDoc, processElement,
      recognizedTags, startsWithH, headingLevel, getTextList, getText, String.append_empty]

/-- C1 counterexample: an h5 element, which the claim says must yield one
heading block of level 5, yields no block at all: find_all on source line 72
lists only h1 through h4. -/
theorem c1_h5_counterexample : convert_to_docx_with_style [.elem "h5" [.text "Deep heading"]] = [] := by
  decide

/-- C2 (amended): the extraction loop has no PlainText fallback: text held
only by an unrecognized tag, or bare text in the body, produces no block at
all, so a non-empty fragment can convert to an empty document. -/
theorem c2_unrecognized_dropped (s tag : String) (h : tag ∉ recognizedTags) :
    convert_to_docx_with_style [.elem tag [.text s]] = [] ∧
    convert_to_docx_with_style [.text s] = [] := by
  constructor <;>
    simp [convert_to_docx_with_style, findAllList, findAll, buildDoc, h]

/-- C2 witness: the span tag is not recognized, and a span holding the
non-empty text hello converts to an empty document. -/
theorem c2_unrecognized_dropped_witness :
    (("span" : String) ∉ recognizedTags) ∧
      convert_to_docx_with_style [.elem "span" [.text "hello"]] = [] :=
  ⟨by decide, (c2_unrecognized_dropped "hello" "span" (by decide)).1⟩

/-- C2 counterexample: a bare body text node holding non-whitespace text
yields an empty document, not a PlainText element with default style as the
claim states. -/
theorem c2_plaintext_counterexample :
    convert_to_docx_with_style [.text "hello world"] = [] ∧
      ¬ (("hello world" : String).toList.all Char.isWhitespace = true) :=
  ⟨rfl, by decide⟩

/-- C3: order preservation: conversion of concatenated fragments is the
concatenation of the conversions; the emitted document is exactly the
order-preserving filterMap of the block renderer over the pre-order
find_all traversal; and the mixed-list scenario of the spec comes out in
document order. -/
theorem c3_order_preservation :
    (∀ (xs ys : List Node),
      convert_to_docx_with_style (xs ++ ys) =
        convert_to_docx_with_style xs ++ convert_to_docx_with_style ys) ∧
    (∀ body : List Node,
      convert_to_docx_with_style body =
        (findAllList "body" body).filterMap (fun p => processElement p.1 p.2)) ∧
    (∀ a b c : String,
      convert_to_docx_with_style
        [.elem "ul" [.elem "li" [.text a], .elem "li" [.text b]],
         .elem "ol" [.elem "li" [.text c]]] =
        [.listItem .bullet a, .listItem .bullet b, .listItem .number c]) := by
  refine ⟨?_, ?_, ?_⟩
  · intro xs ys
    rw [convert_to_docx_with_style, findAllList_append, buildDoc_append]
    rfl
  · intro body
    rw [convert_to_docx_with_style, buildDoc_eq_filterMap]
  · intro a b c
    simp [convert_to_docx_with_style, findAllList, findAll, buildDoc, processElement,
      recognizedTags, startsWithH, getTextList, getText, String.append_empty]

/-- C4: every li element yields exactly one ListItem block (the count of
ListItem blocks in any converted document equals the count of li elements
in the fragment, at any nesting depth), with kind resolved solely from the
immediate parent tag: Bullet iff the parent is ul, Number for an ol parent;
ul and ol containers themselves yield no block; and in a nested mixed list
each li uses only its immediate parent. -/
theorem c4_list_item_kinds :
    (∀ (cs : List Node) (par : String),
      processElement (.elem "li" cs) par =
        some (.listItem (if par = "ul" then .bullet else .number) (getTextList cs))) ∧
    (∀ (cs : List Node) (par : String), processElement (.elem "ul" cs) par = none) ∧
    (∀ (cs : List Node) (par : String), processElement (.elem "ol" cs) par = none) ∧
    (∀ body : List Node,
      (convert_to_docx_with_style body).countP isListItemBlock = countLiList body) ∧
    (∀ a b : String,
      convert_to_docx_with_style
        [.elem "ul" [.elem "li" [.text a, .elem "ol" [.elem "li" [.text b]]]]] =
        [.listItem .bullet (a ++ b), .listItem .number b]) := by
  refine ⟨processElement_li, ?_, ?_, convert_countLi, ?_⟩
  · intro cs par
    simp [processElement, startsWithH]
  · intro cs par
    simp [processElement, startsWithH]
  · intro a b
    simp [convert_to_docx_with_style, findAllList, findAll, buildDoc, processElement,
      recognizedTags, startsWithH, getTextList, getText, String.append_empty]

/-- C5 (amended): a pre element converts to exactly one code block with the
Courier New monospace font whose text is the raw get_text of the element,
with no trimming applied (source line 90 copies the text unchanged). -/
theorem c5_codeblock_untrimmed (s : String) :
    convert_to_docx_with_style [.elem "pre" [.elem "code" [.text s]]] =
      [.codeBlock s "Courier New"] := by
  simp [convert_to_docx_with_style, findAllList, findAll, buildDoc, processElement,
    recognizedTags, startsWithH, getTextList, getText, String.append_empty]

/-- C5 counterexample: the fragment the fenced-code parser emits for a
print statement carries the trailing newline inside the pre element, and the
converted code block keeps it: the text is not the whitespace-trimmed
print string the claim requires. -/
theorem c5_trim_counterexample :
    convert_to_docx_with_style [.elem "pre" [.elem "code" [.text "print(\"hi\")\n"]]] =
      [.codeBlock "print(\"hi\")\n" "Courier New"] ∧
    ("print(\"hi\")\n" : String) ≠ "print(\"hi\")" := by
  constructor
  · decide
  · decide

/-- C8: when find_all yields no recognized element the conversion loop body
never runs and the conversion returns, without error, the document with
zero content blocks (whose serialization to the byte container is the
external word-processing library's doc.save on an empty document). -/
theorem c8_empty_document (body : List Node) (h : findAllList "body" body = []) :
    convert_to_docx_with_style body = [] := by
  rw [convert_to_docx_with_style, h]
  rfl

/-- C8 witness: a fragment holding only table markup matches nothing and
converts to the empty document without error. -/
theorem c8_empty_document_witness :
    findAllList "body" [.elem "table" [.elem "tr" [.elem "td" [.text "cell"]]]] = [] ∧
    convert_to_docx_with_style [.elem "table" [.elem "tr" [.elem "td" [.text "cell"]]]] = [] :=
  ⟨rfl, c8_empty_document _ rfl⟩

/-- C9: a recognized element nested in another recognized element is
emitted twice: a p inside a blockquote yields the Quote-styled block holding
the flattened text and then a separate plain paragraph with the same text;
an li nested under an inner list contributes its text to the outer ListItem
block and also yields its own ListItem block. -/
theorem c9_nested_double_emission (s a b : String) :
    convert_to_docx_with_style [.elem "blockquote" [.elem "p" [.text s]]] =
      [.quote s, .paragraph s] ∧
    convert_to_docx_with_style
      [.elem "ul" [.elem "li" [.text a, .elem "ul" [.elem "li" [.text b]]]]] =
      [.listItem .bullet (a ++ b), .listItem .bullet b] := by
  constructor <;>
    simp [convert_to_docx_with_style, findAllList, findAll, buildDoc, processElement,
      recognizedTags, startsWithH, getTextList, getText, String.append_empty]

/-- C10: the list-kind test is a binary comparison of the immediate parent
tag with ul: an li under any other parent, list container or not, gets the
List Number style, never an error; in particular an li inside a div
converts to a Number item. -/
theorem c10_li_nonbullet_default (cs : List Node) (par : String) (h : par ≠ "ul") :
    processElement (.elem "li" cs) par = some (.listItem .number (getTextList cs)) ∧
    (∀ s : String, convert_to_docx_with_style [.elem "div" [.elem "li" [.text s]]] =
      [.listItem .number s]) := by
  constructor
  · rw [processElement_li, if_neg h]
  · intro s
    simp [convert_to_docx_with_style, findAllList, findAll, buildDoc, processElement,
      recognizedTags, startsWithH, getTextList, getText, String.append_empty]

/-- C10 witness: an li whose immediate parent is a div, not a list
container at all, yields a Number-kind list item. -/
theorem c10_li_nonbullet_default_witness :
    (("div" : String) ≠ "ul") ∧
      processElement (.elem "li" [.text "x"]) "div" = some (.listItem .number "x") :=
  ⟨by decide, (c10_li_nonbullet_default [.text "x"] "div" (by decide)).1⟩



/-- C6: when the rendering engine errors, convert_to_pdf returns no bytes
together with the PDF-specific error message, the PDF branch of main offers
no download, the HTML branch is independent of the renderer (and succeeds
when no custom CSS is supplied), and the DOCX branch still offers its
download, converted as usual. -/
theorem c6_pdf_failure_isolated (render : String → Except String (List Nat))
    (html css : String) (parsedBody : List Node) (msg : String)
    (h : render html = .error msg) :
    convert_to_pdf render html = (none, ["Error converting to PDF: " ++ msg]) ∧
    mainConvert render .pdf html css parsedBody =
      (none, ["Error converting to PDF: " ++ msg]) ∧
    (∀ render2, mainConvert render2 .html html css parsedBody =
      mainConvert render .html html css parsedBody) ∧
    mainConvert render .docx html css parsedBody =
      (some (.docxFile (convert_to_docx_with_style parsedBody)), []) ∧
    (css = "" → mainConvert render .html html css parsedBody =
      (some (.htmlFile html), [])) := by
  have hpdf : convert_to_pdf render html = (none, ["Error converting to PDF: " ++ msg]) := by
    rw [convert_to_pdf, h]
  refine ⟨hpdf, ?_, ?_, rfl, ?_⟩
  · simp [mainConvert, hpdf]
  · intro render2
    rfl
  · intro hcss
    subst hcss
    rfl

/-- C6 witness: a renderer that always errors with boom makes the PDF
branch yield no download and the boom-specific error message. -/
theorem c6_pdf_failure_witness :
    ((fun _ : String => (.error "boom" : Except String (List Nat))) "<p>x</p>"
        = .error "boom") ∧
    mainConvert (fun _ => .error "boom") .pdf "<p>x</p>" "" [] =
      (none, ["Error converting to PDF: boom"]) :=
  ⟨rfl, (c6_pdf_failure_isolated (fun _ => .error "boom") "<p>x</p>" "" [] "boom" rfl).2.1⟩

/-- C7 (amended): for a non-empty custom CSS containing no backslash, and a
fragment whose tail region contains no opening style tag, the HTML output
is the styled shell with the single embedded style block replaced by the
supplied CSS verbatim.  (For CSS with backslashes the substitution is not
verbatim: re.sub processes replacement-template escapes, see the
counterexample.) -/
theorem c7_css_substitution (css frag : String) (hcss : css ≠ "")
    (hbs : ∀ c ∈ css.toList, c ≠ '\\')
    (hfrag : ∀ i, i < (shellTail frag).toList.length →
      List.isPrefixOf (openT.take ((shellTail frag).toList.length - i))
        ((shellTail frag).toList.drop i) = false) :
    applyCustomCss css (md_to_html_with_style frag) =
      .ok (shellHead1 ++ "<style>" ++ css ++ "</style>" ++ shellTail frag) := by
  have hrepl : ("<style>" ++ css ++ "</style>").toList = openT ++ css.toList ++ closeT := by
    simp only [toList_append]
    rw [show ("<style>" : String).toList = openT from rfl,
      show ("</style>" : String).toList = closeT from rfl]
  have hexp : expandTemplate (openT ++ defaultCssBlock.toList ++ closeT)
      (openT ++ css.toList ++ closeT) = .ok (openT ++ css.toList ++ closeT) := by
    rw [expandTemplate]
    apply expandGo_no_bs
    intro c hc
    rcases List.mem_append.mp hc with h | h
    · rcases List.mem_append.mp h with h2 | h2
      · exact (by decide : ∀ x ∈ openT, x ≠ '\\') c h2
      · exact hbs c h2
    · exact (by decide : ∀ x ∈ closeT, x ≠ '\\') c h
  rw [applyCustomCss, if_neg hcss, reSubStyle, shell_toList, hrepl,
    subGo_shell (openT ++ css.toList ++ closeT) (openT ++ css.toList ++ closeT)
      (shellTail frag).toList hexp hfrag]
  simp only [Except.map]
  refine congrArg Except.ok ?_
  apply String.ext
  show shellHead1.toList ++ ((openT ++ css.toList ++ closeT) ++ (shellTail frag).toList) =
    (shellHead1 ++ "<style>" ++ css ++ "</style>" ++ shellTail frag).toList
  simp only [toList_append, List.append_assoc]
  rw [show ("<style>" : String).toList = openT from rfl,
    show ("</style>" : String).toList = closeT from rfl]

/-- C7 witness: a concrete backslash-free CSS rule on the shell of a small
fragment is substituted verbatim for the embedded style block. -/
theorem c7_css_substitution_witness :
    applyCustomCss "body \x7b color: red; \x7d" (md_to_html_with_style "<p>hi</p>") =
      .ok (shellHead1 ++ "<style>" ++ "body \x7b color: red; \x7d" ++ "</style>" ++
        shellTail "<p>hi</p>") :=
  c7_css_substitution "body \x7b color: red; \x7d" "<p>hi</p>" (by decide) (by decide)
    (by decide)

set_option maxRecDepth 2048 in
/-- C7 counterexample: a custom CSS text ending in the group-0
replacement-template escape is not substituted verbatim: re.sub expands the
escape to the whole matched style block, so the emitted document differs
from the shell with its style block replaced by the supplied CSS text. -/
theorem c7_css_counterexample :
    applyCustomCss c7cssBad (md_to_html_with_style "<p>hi</p>") =
      .ok (shellHead1 ++ "<style>" ++ c7cssPlain ++
        ("<style>" ++ defaultCssBlock ++ "</style>") ++ "</style>" ++ shellTail "<p>hi</p>") ∧
    shellHead1 ++ "<style>" ++ c7cssPlain ++
        ("<style>" ++ defaultCssBlock ++ "</style>") ++ "</style>" ++ shellTail "<p>hi</p>" ≠
      shellHead1 ++ "<style>" ++ c7cssBad ++ "</style>" ++ shellTail "<p>hi</p>" := by
  constructor
  · have hrepl : ("<style>" ++ c7cssBad ++ "</style>").toList =
        openT ++ c7cssBad.toList ++ closeT := by decide
    have hexp := expandBad (openT ++ defaultCssBlock.toList ++ closeT)
    rw [hrepl] at hexp
    rw [applyCustomCss, if_neg (by decide : ¬ c7cssBad = ""), reSubStyle, shell_toList, hrepl,
      subGo_shell (openT ++ c7cssBad.toList ++ closeT)
        (("<style>" ++ c7cssPlain).toList ++
          ((openT ++ defaultCssBlock.toList ++ closeT) ++ closeT))
        (shellTail "<p>hi</p>").toList hexp (by decide)]
    simp only [Except.map]
    refine congrArg Except.ok ?_
    apply String.ext
    show shellHead1.toList ++
        ((("<style>" ++ c7cssPlain).toList ++
          ((openT ++ defaultCssBlock.toList ++ closeT) ++ closeT)) ++
          (shellTail "<p>hi</p>").toList) =
      (shellHead1 ++ "<style>" ++ c7cssPlain ++
        ("<style>" ++ defaultCssBlock ++ "</style>") ++ "</style>" ++
        shellTail "<p>hi</p>").toList
    simp only [toList_append, List.append_assoc]
    rw [show ("<style>" : String).toList = openT from rfl,
      show ("</style>" : String).toList = closeT from rfl]
  · intro heq
    have hl := congrArg String.length heq
    simp only [String.length_append, c7cssBad] at hl
    have h1 : ("\\g<0>" : String).length = 5 := rfl
    have h2 : ("<style>" : String).length = 7 := rfl
    have h3 : ("</style>" : String).length = 8 := rfl
    simp only [String.length_append, h1, h2, h3] at hl
    omega

end MdToDocx
